import Mathlib

/-!
Shallow embedding of the adaptive configuration scheduler of
rlgym_distrib_rl_wrapper/RLGymEnvironment.py.

Modelling conventions:
* Python dicts are association lists in insertion order; a dict
  comprehension keeps the first occurrence of each key.
* A raised KeyError / ValueError is modelled by an operation returning
  none; the external simulation, component factories and numpy values are
  out of scope and appear only as opaque parameters.
* Python int counters are Lean Int.
-/

namespace RLGymWrapper

/-- Configuration value for a setting that may be given either as a fixed
scalar or as a candidate list (Python: the value is a list or not). -/
inductive CVal (α : Type) where
  | scalar : α → CVal α
  | many : List α → CVal α
  deriving DecidableEq, Repr

/-- Scheduler-relevant part of the configuration mapping: the two settings
that support candidate sets. A missing field models an absent dict key. -/
structure Config where
  spawn_opponents : Option (CVal Bool) := none
  team_size : Option (CVal Int) := none
  deriving DecidableEq, Repr

/-- Inner dict of the step accounting table: team size to cumulative count. -/
abbrev Bucket := List (Int × Int)

/-- Outer dict of the step accounting table: opponents-present to bucket map
(Python attribute steps_by_team_size, two-level dict). -/
abbrev Table := List (Bool × Bucket)

/-- Dict lookup on an association list (Python d[k] / d.get(k)). -/
def lookupA {α β : Type} [DecidableEq α] : List (α × β) → α → Option β
  | [], _ => none
  | (k, v) :: rest, key => if key = k then some v else lookupA rest key

/-- Dict update in place: change the value at an existing key, keeping its
position (Python d[k] = v on a present key). -/
def updateA {α β : Type} [DecidableEq α] (f : β → β) : List (α × β) → α → List (α × β)
  | [], _ => []
  | (k, v) :: rest, key => if key = k then (k, f v) :: rest else (k, v) :: updateA f rest key

/-- Dict store: update an existing key in place, or append a new one
(Python d[k] = v). -/
def setA {α β : Type} [DecidableEq α] : List (α × β) → α → β → List (α × β)
  | [], key, val => [(key, val)]
  | (k, v) :: rest, key, val => if key = k then (k, val) :: rest else (k, v) :: setA rest key val

/-- Helper of firstDedup carrying the set of keys already seen. -/
def firstDedupAux {α : Type} [DecidableEq α] : List α → List α → List α
  | _, [] => []
  | seen, a :: as => if a ∈ seen then firstDedupAux seen as else a :: firstDedupAux (a :: seen) as

/-- Key sequence of a Python dict comprehension iterating over a list:
duplicates collapse onto their first occurrence. -/
def firstDedup {α : Type} [DecidableEq α] (l : List α) : List α :=
  firstDedupAux [] l

/-- Python max(list): none on an empty list (ValueError). -/
def listMax : List Int → Option Int
  | [] => none
  | a :: as => some (as.foldl max a)

/-- Helper of minKey: Python min folding, keeping the earlier pair on ties. -/
def minPairAux {α : Type} (best : α × Int) : List (α × Int) → α × Int
  | [] => best
  | p :: rest => if p.2 < best.2 then minPairAux p rest else minPairAux best rest

/-- Python min(d, key=d.get): the first key in iteration order whose value is
minimal; none on an empty dict (ValueError). -/
def minKey {α : Type} : List (α × Int) → Option α
  | [] => none
  | p :: rest => some (minPairAux p rest).1

/-- Python sum(d.values()). -/
def sumVals (b : Bucket) : Int := (b.map Prod.snd).sum

/-- Candidate list for spawn_opponents as read by init_step_counter:
config.get with default [False], then coerced to a list. -/
def spawnCandidates (c : Config) : List Bool :=
  match c.spawn_opponents with
  | none => [false]
  | some (CVal.scalar b) => [b]
  | some (CVal.many l) => l

/-- Candidate list for team_size as read by init_step_counter:
config.get with default [1], then coerced to a list. -/
def teamCandidates (c : Config) : List Int :=
  match c.team_size with
  | none => [1]
  | some (CVal.scalar v) => [v]
  | some (CVal.many l) => l

/-- Inner dict comprehension: size maps to 0 for every size in the list. -/
def zeroBucket (ts : List Int) : Bucket :=
  (firstDedup ts).map (fun t => (t, 0))

/-- Method init_step_counter: the fresh two-level table, one zero bucket per
declared opponents-present candidate and team-size candidate. -/
def initTable (c : Config) : Table :=
  (firstDedup (spawnCandidates c)).map (fun b => (b, zeroBucket (teamCandidates c)))

/-- Scheduler state of an RLGymEnvironment instance: the stored config and
the attributes first_reset, team_size, spawn_opponents, steps_by_team_size. -/
structure EnvState where
  config : Config
  first_reset : Bool
  team_size : Int
  spawn_opponents : Bool
  table : Table
  deriving DecidableEq, Repr

/-- True exactly when the configuration value is a candidate list
(Python: type(x) is list). -/
def isCandidate {α : Type} : Option (CVal α) → Bool
  | some (CVal.many _) => true
  | _ => false

/-- Tail of parse_make_kwargs acting on the scheduler attributes: when the
spawn_opponents value is a list, the active flag is forced to True; when the
team_size value is a list, the active team size becomes its maximum (none
models the ValueError of max on an empty list). -/
def parsePost (c : Config) (s : EnvState) : Option EnvState :=
  let s1 :=
    match c.spawn_opponents with
    | some (CVal.many _) => { s with spawn_opponents := true }
    | _ => s
  match c.team_size with
  | some (CVal.many l) =>
      match listMax l with
      | none => none
      | some m => some { s1 with team_size := m }
  | _ => some s1

/-- Constructor: store the config, set the attribute defaults, run the
normalizer post-processing, then build the fresh accounting table. -/
def construct (c : Config) : Option EnvState :=
  match parsePost c { config := c, first_reset := true, team_size := 1,
                      spawn_opponents := false, table := [] } with
  | none => none
  | some s => some { s with table := initTable c }

/-- Accounting part of step: add team_size (doubled when opponents are
present) to the bucket of the active configuration; none models the KeyError
raised when either level of the direct dict indexing misses. -/
def stepCounter (s : EnvState) : Option EnvState :=
  let n : Int := if s.spawn_opponents then s.team_size * 2 else s.team_size
  match lookupA s.table s.spawn_opponents with
  | none => none
  | some bucket =>
    match lookupA bucket s.team_size with
    | none => none
    | some _ =>
      let t2 := updateA (fun bk => updateA (fun v => v + n) bk s.team_size) s.table s.spawn_opponents
      some { s with table := t2 }

/-- Method step: update the accounting table, then wrap the underlying
four-tuple (obs, reward, done, info) as (obs, reward, done, False, info). -/
def step {α β γ : Type} (s : EnvState) (obs : α) (reward : β) (done : Bool) (info : γ) :
    Option (EnvState × (α × β × Bool × Bool × γ)) :=
  match stepCounter s with
  | none => none
  | some s2 => some (s2, (obs, reward, done, false, info))

/-- Opponents-present selection block of reset: only runs when the config
value is a list; prefers True on the first reset or when the bucket map of
the currently active value is empty, otherwise takes the value with the
smaller total count (False on ties, the first dict key). -/
def selectSpawn (s : EnvState) : Option EnvState :=
  match s.config.spawn_opponents with
  | some (CVal.many _) =>
      if s.first_reset then some { s with spawn_opponents := true }
      else
        match lookupA s.table s.spawn_opponents with
        | none => none
        | some bucket =>
          if bucket.length = 0 then some { s with spawn_opponents := true }
          else
            match lookupA s.table false, lookupA s.table true with
            | some bF, some bT =>
                some { s with spawn_opponents := if sumVals bT < sumVals bF then true else false }
            | _, _ => none
  | _ => some s

/-- Local spawn_opponents variable of reset after the selection block: the
updated attribute when the config value is a list, the raw scalar (default
False) otherwise. -/
def localSpawn (s : EnvState) : Bool :=
  match s.config.spawn_opponents with
  | some (CVal.many _) => s.spawn_opponents
  | some (CVal.scalar b) => b
  | none => false

/-- Team-size selection block of reset: only runs when the config value is a
list; takes the maximum candidate on the first reset or when the bucket map
of the active opponents-present value is empty, otherwise the key with the
fewest steps in the bucket map of the locally chosen opponents-present value,
read with a zero-filled default when that key is absent. -/
def selectTeam (s : EnvState) : Option EnvState :=
  match s.config.team_size with
  | some (CVal.many l) =>
      if s.first_reset then
        match listMax l with
        | none => none
        | some m => some { s with team_size := m }
      else
        match lookupA s.table s.spawn_opponents with
        | none => none
        | some bucket =>
          if bucket.length = 0 then
            match listMax l with
            | none => none
            | some m => some { s with team_size := m }
          else
            match minKey ((lookupA s.table (localSpawn s)).getD (zeroBucket l)) with
            | none => none
            | some t => some { s with team_size := t }
  | _ => some s

/-- Local team_size variable of reset after the selection block. -/
def localTeam (s : EnvState) : Int :=
  match s.config.team_size with
  | some (CVal.many _) => s.team_size
  | some (CVal.scalar v) => v
  | none => 1

/-- Result of reset: the post-reset scheduler state together with the blue
and orange team sizes handed to the dynamic state setter. -/
structure ResetResult where
  state : EnvState
  blue : Int
  orange : Int
  deriving DecidableEq, Repr

/-- Method reset: when options are supplied the stored config is replaced,
the normalizer post-processing reruns and the accounting table is rebuilt;
then both selection blocks run, the first-reset flag is cleared and the
chosen team sizes are computed (orange is 0 when opponents are absent). -/
def reset (s : EnvState) (options : Option Config) : Option ResetResult :=
  let start : Option EnvState :=
    match options with
    | none => some s
    | some c =>
        Option.map (fun s1 => { s1 with table := initTable c })
          (parsePost c { s with config := c })
  Option.bind start (fun s1 =>
    Option.bind (selectSpawn s1) (fun s2 =>
      Option.bind (selectTeam s2) (fun s3 =>
        some { state := { s3 with first_reset := false },
               blue := localTeam s3,
               orange := if localSpawn s3 then localTeam s3 else 0 })))

/-- A sequence of n reset calls with options absent. -/
def resetN : Nat → EnvState → Option EnvState
  | 0, s => some s
  | n + 1, s => Option.bind (reset s none) (fun r => resetN n r.state)

/-- Convenience constructor for a scheduler state. -/
def mkState (c : Config) (fr : Bool) (tsz : Int) (sp : Bool) (tab : Table) : EnvState :=
  { config := c, first_reset := fr, team_size := tsz, spawn_opponents := sp, table := tab }

/-- Table produced by one successful step call, for use in proofs. -/
def stepTable (s : EnvState) : Table :=
  updateA (fun bk => updateA (fun w => w + (if s.spawn_opponents then s.team_size * 2 else s.team_size)) bk s.team_size) s.table s.spawn_opponents

/-- Configuration with neither candidate setting present. -/
def cfgEmpty : Config := { spawn_opponents := none, team_size := none }

/-- Configuration declaring only a team-size candidate list. -/
def cfgTeams (l : List Int) : Config := { spawn_opponents := none, team_size := some (CVal.many l) }

/-- Configuration with spawn_opponents fixed to the scalar True. -/
def cfgScalarTrue : Config := { spawn_opponents := some (CVal.scalar true), team_size := none }

/-- Configuration declaring both candidate lists. -/
def cfgBoth (bs : List Bool) (l : List Int) : Config :=
  { spawn_opponents := some (CVal.many bs), team_size := some (CVal.many l) }

/-- Concrete result of the rebuild-witness reset call. -/
def rebuildWitnessResult : ResetResult :=
  { state := mkState (cfgBoth [false, true] [1, 2]) false 1 false (initTable (cfgBoth [false, true] [1, 2])), blue := 1, orange := 0 }

/-- Configuration whose opponents-present candidate list holds only true. -/
def cfgSpawnTrueOnly : Config := { spawn_opponents := some (CVal.many [true]), team_size := none }

/-- State of a wrapper built from cfgSpawnTrueOnly. -/
def spawnOnlyState : EnvState := mkState cfgSpawnTrueOnly true 1 true [(true, [(1, 0)])]

/-- Result of the first reset on spawnOnlyState. -/
def spawnOnlyResult : ResetResult :=
  { state := mkState cfgSpawnTrueOnly false 1 true [(true, [(1, 0)])], blue := 1, orange := 1 }

/-- Concrete pre-state of the balanced-selection witness. -/
def balanceWitnessState : EnvState :=
  mkState (cfgBoth [false, true] [1, 2]) false 2 false [(false, [(1, 10), (2, 4)]), (true, [(1, 3), (2, 9)])]

/-- Concrete pre-state of the first-reset witness. -/
def firstResetWitnessState : EnvState :=
  mkState (cfgBoth [false, true] [1, 2]) true 1 true (initTable (cfgBoth [false, true] [1, 2]))

/-- Concrete result of the first-reset witness. -/
def firstResetWitnessResult : ResetResult :=
  { state := mkState (cfgBoth [false, true] [1, 2]) false 2 true (initTable (cfgBoth [false, true] [1, 2])), blue := 2, orange := 2 }

/-- State of a wrapper built from cfgScalarTrue: active fields keep their
construction defaults while the table is keyed only by true. -/
def scalarTrueState : EnvState := mkState cfgScalarTrue true 1 false [(true, [(1, 0)])]

/-- Result of an option-free reset on scalarTrueState. -/
def scalarTrueReset : ResetResult :=
  { state := mkState cfgScalarTrue false 1 false [(true, [(1, 0)])], blue := 1, orange := 1 }

/-- Configuration with scalar-true spawn_opponents and a team candidate list. -/
def cfgScalarTrueTeams : Config :=
  { spawn_opponents := some (CVal.scalar true), team_size := some (CVal.many [2, 3]) }

/-- State exercising the zero-default bucket lookup of the team selection. -/
def lazyWitnessState : EnvState := mkState cfgScalarTrueTeams false 1 false [(false, [(1, 7)])]

/-- Configuration for the parse-postprocessing witness. -/
def parseWitnessCfg : Config :=
  { spawn_opponents := some (CVal.scalar true), team_size := some (CVal.many [2, 5]) }

/-- State before the parse-postprocessing witness. -/
def parseWitnessPre : EnvState := mkState parseWitnessCfg true 1 false []

/-- State after the parse-postprocessing witness. -/
def parseWitnessPost : EnvState := mkState parseWitnessCfg true 5 false []

/-- Value stored in the construction kwargs mapping: one of the fixed
defaults, a component built by a factory for a component kind, or a raw
config value stored verbatim. The external component instances themselves
are opaque. -/
inductive KVal (α : Type) where
  | dflt : KVal α
  | built : String → α → KVal α
  | raw : α → KVal α
  deriving DecidableEq, Repr

/-- Keys of the module table of component factories. -/
def make_config_parsers : List String :=
  ["action_parser", "obs_builder", "state_setter", "reward_function", "terminal_conditions"]

/-- Recognized passthrough setting names. -/
def make_kwarg_names : List String :=
  ["reward_function", "terminal_conditions", "obs_builder", "action_parser", "state_setter", "team_size", "spawn_opponents", "copy_gamestate_every_step", "tick_skip", "gravity", "boost_consumption", "dodge_deadzone"]

/-- Key rename applied when storing into the kwargs mapping. -/
def make_kwarg_key_transformations (k : String) : String :=
  if k = "reward_function" then "reward_fn" else k

/-- Default kwargs mapping built at the top of parse_make_kwargs, in source
order; the concrete default component instances are opaque. -/
def default_make_kwargs {α : Type} : List (String × KVal α) :=
  [("reward_fn", KVal.dflt), ("terminal_conditions", KVal.dflt), ("obs_builder", KVal.dflt), ("action_parser", KVal.dflt), ("state_setter", KVal.dflt), ("team_size", KVal.dflt), ("spawn_opponents", KVal.dflt), ("copy_gamestate_every_step", KVal.dflt), ("tick_skip", KVal.dflt), ("gravity", KVal.dflt), ("boost_consumption", KVal.dflt), ("dodge_deadzone", KVal.dflt)]

/-- Key list of the default kwargs mapping. -/
def default_make_kwarg_keys : List String :=
  ["reward_fn", "terminal_conditions", "obs_builder", "action_parser", "state_setter", "team_size", "spawn_opponents", "copy_gamestate_every_step", "tick_skip", "gravity", "boost_consumption", "dodge_deadzone"]

/-- Body of the key-dispatch loop of parse_make_kwargs: a component kind is
built and stored under the renamed key, a recognized setting is stored
verbatim, and any other key is skipped with a warning. -/
def parseItem {α : Type} (acc : List (String × KVal α) × List String) (item : String × α) :
    List (String × KVal α) × List String :=
  if item.1 ∈ make_config_parsers then
    (setA acc.1 (make_kwarg_key_transformations item.1) (KVal.built item.1 item.2), acc.2)
  else if item.1 ∈ make_kwarg_names then
    (setA acc.1 (make_kwarg_key_transformations item.1) (KVal.raw item.2), acc.2)
  else
    (acc.1, acc.2 ++ [item.1])

/-- Key-dispatch loop of parse_make_kwargs over the raw configuration items,
returning the kwargs mapping and the warned-about keys. -/
def parseMakeKwargs {α : Type} (config : List (String × α)) :
    List (String × KVal α) × List String :=
  config.foldl parseItem (default_make_kwargs, [])

/-! Basic dictionary lemmas. -/

theorem lookupA_updateA_same {α β : Type} [DecidableEq α] (f : β → β) :
    ∀ (l : List (α × β)) (k : α), lookupA (updateA f l k) k = (lookupA l k).map f := by
  intro l k
  induction l with
  | nil => simp [lookupA, updateA]
  | cons p rest ih =>
    obtain ⟨k1, v1⟩ := p
    by_cases h : k = k1
    · simp [lookupA, updateA, h]
    · simp [lookupA, updateA, h, ih]

theorem lookupA_updateA_ne {α β : Type} [DecidableEq α] (f : β → β) :
    ∀ (l : List (α × β)) (k k2 : α), k2 ≠ k → lookupA (updateA f l k) k2 = lookupA l k2 := by
  intro l k k2 hne
  induction l with
  | nil => simp [lookupA, updateA]
  | cons p rest ih =>
    obtain ⟨k1, v1⟩ := p
    by_cases h : k = k1
    · subst h
      simp [lookupA, updateA, hne]
    · by_cases h2 : k2 = k1 <;> simp [lookupA, updateA, h, h2, ih]

theorem mem_of_lookupA {α β : Type} [DecidableEq α] :
    ∀ (l : List (α × β)) (k : α) (v : β), lookupA l k = some v → (k, v) ∈ l := by
  intro l k v h
  induction l with
  | nil => simp [lookupA] at h
  | cons p rest ih =>
    obtain ⟨k1, v1⟩ := p
    by_cases hk : k = k1
    · subst hk
      simp [lookupA] at h
      simp [h]
    · simp [lookupA, hk] at h
      exact List.mem_cons_of_mem _ (ih h)

theorem mem_firstDedupAux {α : Type} [DecidableEq α] :
    ∀ (l seen : List α) (x : α), x ∈ firstDedupAux seen l ↔ x ∈ l ∧ x ∉ seen := by
  intro l
  induction l with
  | nil => simp [firstDedupAux]
  | cons a as ih =>
    intro seen x
    by_cases h : a ∈ seen
    · simp only [firstDedupAux, if_pos h, ih, List.mem_cons]
      constructor
      · rintro ⟨hx, hs⟩
        exact ⟨Or.inr hx, hs⟩
      · rintro ⟨hx | hx, hs⟩
        · subst hx
          exact absurd h hs
        · exact ⟨hx, hs⟩
    · simp only [firstDedupAux, if_neg h, List.mem_cons, ih]
      constructor
      · rintro (hxa | ⟨hx, hs⟩)
        · subst hxa
          exact ⟨Or.inl rfl, h⟩
        · exact ⟨Or.inr hx, fun hc => hs (Or.inr hc)⟩
      · rintro ⟨hx | hx, hs⟩
        · subst hx
          exact Or.inl rfl
        · by_cases hxa : x = a
          · exact Or.inl hxa
          · exact Or.inr ⟨hx, fun hc => hc.elim hxa hs⟩

theorem mem_firstDedup {α : Type} [DecidableEq α] (l : List α) (x : α) :
    x ∈ firstDedup l ↔ x ∈ l := by
  simp [firstDedup, mem_firstDedupAux]

theorem lookupA_map_const {α β : Type} [DecidableEq α] (z : β) :
    ∀ (l : List α) (k : α),
      lookupA (l.map (fun b => (b, z))) k = if k ∈ l then some z else none := by
  intro l k
  induction l with
  | nil => simp [lookupA]
  | cons a as ih =>
    by_cases h : k = a
    · simp [lookupA, h]
    · simp [lookupA, h, ih]

/-! Lemmas about the Python min over a dict. -/

theorem minPairAux_eq_or_mem {α : Type} :
    ∀ (l : List (α × Int)) (best : α × Int),
      minPairAux best l = best ∨ minPairAux best l ∈ l := by
  intro l
  induction l with
  | nil => intro best; left; rfl
  | cons p rest ih =>
    intro best
    by_cases h : p.2 < best.2
    · simp only [minPairAux, if_pos h]
      rcases ih p with h2 | h2
      · right
        rw [h2]
        exact List.mem_cons_self _ _
      · right
        exact List.mem_cons_of_mem _ h2
    · simp only [minPairAux, if_neg h]
      rcases ih best with h2 | h2
      · left; exact h2
      · right; exact List.mem_cons_of_mem _ h2

theorem minPairAux_snd_le {α : Type} :
    ∀ (l : List (α × Int)) (best : α × Int), (minPairAux best l).2 ≤ best.2 := by
  intro l
  induction l with
  | nil => intro best; exact le_refl _
  | cons p rest ih =>
    intro best
    by_cases h : p.2 < best.2
    · simp only [minPairAux, if_pos h]
      exact le_trans (ih p) (le_of_lt h)
    · simp only [minPairAux, if_neg h]
      exact ih best

theorem minPairAux_le_mem {α : Type} :
    ∀ (l : List (α × Int)) (best p : α × Int), p ∈ l → (minPairAux best l).2 ≤ p.2 := by
  intro l
  induction l with
  | nil => intro best p hp; simp at hp
  | cons q rest ih =>
    intro best p hp
    rcases List.mem_cons.mp hp with h1 | h1
    · subst h1
      by_cases h : p.2 < best.2
      · simp only [minPairAux, if_pos h]
        exact minPairAux_snd_le rest p
      · simp only [minPairAux, if_neg h]
        exact le_trans (minPairAux_snd_le rest best) (le_of_not_lt h)
    · by_cases h : q.2 < best.2
      · simp only [minPairAux, if_pos h]
        exact ih q p h1
      · simp only [minPairAux, if_neg h]
        exact ih best p h1

theorem minKey_spec {α : Type} (l : List (α × Int)) (k : α) (h : minKey l = some k) :
    ∃ v, (k, v) ∈ l ∧ ∀ p ∈ l, v ≤ p.2 := by
  cases l with
  | nil => simp [minKey] at h
  | cons p rest =>
    simp only [minKey, Option.some.injEq] at h
    refine ⟨(minPairAux p rest).2, ?_, ?_⟩
    · rcases minPairAux_eq_or_mem rest p with h2 | h2
      · rw [← h, Prod.mk.eta, h2]
        exact List.mem_cons_self _ _
      · rw [← h, Prod.mk.eta]
        exact List.mem_cons_of_mem _ h2
    · intro q hq
      rcases List.mem_cons.mp hq with h1 | h1
      · subst h1
        exact minPairAux_snd_le rest q
      · exact minPairAux_le_mem rest p q h1

theorem minPairAux_no_smaller {α : Type} :
    ∀ (l : List (α × Int)) (best : α × Int),
      (∀ p ∈ l, ¬ p.2 < best.2) → minPairAux best l = best := by
  intro l
  induction l with
  | nil => intro best _; rfl
  | cons p rest ih =>
    intro best h
    have hp : ¬ p.2 < best.2 := h p (List.mem_cons_self _ _)
    simp only [minPairAux, if_neg hp]
    exact ih best (fun q hq => h q (List.mem_cons_of_mem _ hq))

/-! Structural lemmas about the selection blocks and reset. -/

theorem selectSpawn_not_many (s : EnvState)
    (h : isCandidate s.config.spawn_opponents = false) : selectSpawn s = some s := by
  unfold selectSpawn
  unfold isCandidate at h
  split
  · simp_all
  · rfl

theorem selectSpawn_first (s : EnvState) (bs : List Bool)
    (hm : s.config.spawn_opponents = some (CVal.many bs)) (h : s.first_reset = true) :
    selectSpawn s = some { s with spawn_opponents := true } := by
  unfold selectSpawn
  rw [hm, h]
  simp

theorem selectSpawn_min (s : EnvState) (bs : List Bool) (bAct bF bT : Bucket)
    (hm : s.config.spawn_opponents = some (CVal.many bs)) (h1 : s.first_reset = false)
    (hA : lookupA s.table s.spawn_opponents = some bAct) (hAne : bAct ≠ [])
    (hF : lookupA s.table false = some bF) (hT : lookupA s.table true = some bT) :
    selectSpawn s =
      some { s with spawn_opponents := if sumVals bT < sumVals bF then true else false } := by
  unfold selectSpawn
  rw [hm, h1, hA, hF, hT]
  simp [List.length_eq_zero, hAne]

theorem selectSpawn_eff (s s' : EnvState) (h : selectSpawn s = some s') :
    s'.config = s.config ∧ s'.table = s.table ∧ s'.first_reset = s.first_reset ∧
      s'.team_size = s.team_size := by
  unfold selectSpawn at h
  repeat' split at h
  all_goals first
    | exact Option.noConfusion h
    | (injection h with h; subst h; exact ⟨rfl, rfl, rfl, rfl⟩)

theorem selectTeam_not_many (s : EnvState)
    (h : isCandidate s.config.team_size = false) : selectTeam s = some s := by
  unfold selectTeam
  unfold isCandidate at h
  split
  · simp_all
  · rfl

theorem selectTeam_first (s : EnvState) (ts : List Int) (m : Int)
    (hm : s.config.team_size = some (CVal.many ts)) (h : s.first_reset = true)
    (hmax : listMax ts = some m) :
    selectTeam s = some { s with team_size := m } := by
  unfold selectTeam
  rw [hm, h]
  simp [hmax]

theorem selectTeam_min (s : EnvState) (ts : List Int) (bAct : Bucket) (t : Int)
    (hm : s.config.team_size = some (CVal.many ts)) (h1 : s.first_reset = false)
    (hA : lookupA s.table s.spawn_opponents = some bAct) (hAne : bAct ≠ [])
    (hmin : minKey ((lookupA s.table (localSpawn s)).getD (zeroBucket ts)) = some t) :
    selectTeam s = some { s with team_size := t } := by
  unfold selectTeam
  rw [hm, h1]
  simp [hA, hmin, List.length_eq_zero, hAne]

theorem selectTeam_eff (s s' : EnvState) (h : selectTeam s = some s') :
    s'.config = s.config ∧ s'.table = s.table ∧ s'.first_reset = s.first_reset ∧
      s'.spawn_opponents = s.spawn_opponents := by
  unfold selectTeam at h
  repeat' split at h
  all_goals first
    | exact Option.noConfusion h
    | (injection h with h; subst h; exact ⟨rfl, rfl, rfl, rfl⟩)

theorem parsePost_eff (c : Config) (s s' : EnvState) (h : parsePost c s = some s') :
    s'.config = s.config ∧ s'.table = s.table ∧ s'.first_reset = s.first_reset := by
  unfold parsePost at h
  repeat' split at h
  all_goals first
    | exact Option.noConfusion h
    | (injection h with h; subst h; exact ⟨rfl, rfl, rfl⟩)

theorem parsePost_scalar_fields (c : Config) (s s' : EnvState) (h : parsePost c s = some s') :
    (isCandidate c.spawn_opponents = false → s'.spawn_opponents = s.spawn_opponents) ∧
    (isCandidate c.team_size = false → s'.team_size = s.team_size) := by
  unfold parsePost at h
  unfold isCandidate
  repeat' split at h
  all_goals first
    | exact Option.noConfusion h
    | (injection h with h; subst h; constructor <;> intro hne <;> simp_all)

theorem reset_none_decomp (s : EnvState) (r : ResetResult) (h : reset s none = some r) :
    ∃ s2 s3, selectSpawn s = some s2 ∧ selectTeam s2 = some s3 ∧
      r = { state := { s3 with first_reset := false }, blue := localTeam s3,
            orange := if localSpawn s3 then localTeam s3 else 0 } := by
  unfold reset at h
  simp only [Option.some_bind, Option.bind_eq_some, Option.some.injEq] at h
  obtain ⟨s2, h2, s3, h3, hr⟩ := h
  exact ⟨s2, s3, h2, h3, hr.symm⟩

theorem reset_some_decomp (s : EnvState) (c : Config) (r : ResetResult)
    (h : reset s (some c) = some r) :
    ∃ s1 s2 s3, parsePost c { s with config := c } = some s1 ∧
      selectSpawn { s1 with table := initTable c } = some s2 ∧ selectTeam s2 = some s3 ∧
      r = { state := { s3 with first_reset := false }, blue := localTeam s3,
            orange := if localSpawn s3 then localTeam s3 else 0 } := by
  unfold reset at h
  simp only [Option.bind_eq_some, Option.map_eq_some', Option.some.injEq] at h
  obtain ⟨sx, ⟨s1, h1, hsx⟩, s2, h2, s3, h3, hr⟩ := h
  subst hsx
  exact ⟨s1, s2, s3, h1, h2, h3, hr.symm⟩

theorem reset_none_build (s s2 s3 : EnvState)
    (h2 : selectSpawn s = some s2) (h3 : selectTeam s2 = some s3) :
    reset s none =
      some { state := { s3 with first_reset := false }, blue := localTeam s3,
             orange := if localSpawn s3 then localTeam s3 else 0 } := by
  unfold reset
  simp [h2, h3]

theorem lookupA_initTable (c : Config) (b : Bool) :
    lookupA (initTable c) b =
      if b ∈ spawnCandidates c then some (zeroBucket (teamCandidates c)) else none := by
  unfold initTable
  rw [lookupA_map_const]
  simp [mem_firstDedup]

theorem lookupA_zeroBucket (ts : List Int) (t : Int) :
    lookupA (zeroBucket ts) t = if t ∈ ts then some 0 else none := by
  unfold zeroBucket
  rw [lookupA_map_const]
  simp [mem_firstDedup]

theorem localSpawn_many (s : EnvState) (bs : List Bool)
    (hm : s.config.spawn_opponents = some (CVal.many bs)) :
    localSpawn s = s.spawn_opponents := by
  unfold localSpawn
  rw [hm]

theorem localSpawn_scalar (s : EnvState) (b : Bool)
    (hm : s.config.spawn_opponents = some (CVal.scalar b)) : localSpawn s = b := by
  unfold localSpawn
  rw [hm]

theorem stepCounter_decomp (s s' : EnvState) (h : stepCounter s = some s') :
    s'.config = s.config ∧ s'.first_reset = s.first_reset ∧
      s'.team_size = s.team_size ∧ s'.spawn_opponents = s.spawn_opponents := by
  unfold stepCounter at h
  repeat' split at h
  all_goals first
    | exact Option.noConfusion h
    | (injection h with h; subst h; exact ⟨rfl, rfl, rfl, rfl⟩)

theorem reset_none_state (s : EnvState) (r : ResetResult) (h : reset s none = some r) :
    r.state.table = s.table ∧ r.state.config = s.config ∧ r.state.first_reset = false := by
  obtain ⟨s2, s3, h2, h3, hr⟩ := reset_none_decomp s r h
  obtain ⟨hc2, ht2, _, _⟩ := selectSpawn_eff s s2 h2
  obtain ⟨hc3, ht3, _, _⟩ := selectTeam_eff s2 s3 h3
  subst hr
  exact ⟨ht3.trans ht2, hc3.trans hc2, rfl⟩

end RLGymWrapper

namespace RLGymWrapper

/-! Claim theorems. -/

/-- C7: the first-episode flag is true from construction until the first
successful reset completes, permanently false afterwards (a reset carrying
new options does not restore it), and step never changes it. -/
theorem first_episode_flag_lifecycle :
    (∀ (c : Config) (s : EnvState), construct c = some s → s.first_reset = true) ∧
    (∀ (s : EnvState) (o : Option Config) (r : ResetResult),
      reset s o = some r → r.state.first_reset = false) ∧
    (∀ (s s' : EnvState), stepCounter s = some s' → s'.first_reset = s.first_reset) := by
  refine ⟨?_, ?_, ?_⟩
  · intro c s h
    unfold construct at h
    cases hp : parsePost c { config := c, first_reset := true, team_size := 1, spawn_opponents := false, table := [] } with
    | none => rw [hp] at h; exact Option.noConfusion h
    | some s1 =>
      rw [hp] at h
      injection h with h
      subst h
      exact (parsePost_eff _ _ _ hp).2.2
  · intro s o r h
    cases o with
    | none =>
      obtain ⟨s2, s3, _, _, hr⟩ := reset_none_decomp s r h
      subst hr
      rfl
    | some c =>
      obtain ⟨s1, s2, s3, _, _, _, hr⟩ := reset_some_decomp s c r h
      subst hr
      rfl
  · intro s s' h
    exact (stepCounter_decomp s s' h).2.1

/-- Witness for C7 at a concrete configuration and state. -/
theorem first_episode_flag_lifecycle_witness :
    (mkState cfgEmpty true 1 false [(false, [(1, 0)])]).first_reset = true := by
  exact first_episode_flag_lifecycle.1 cfgEmpty _ (by decide)

/-- C5: any sequence of reset calls with options absent leaves the step
accounting table exactly as it was, and never turns the first-episode flag
back on. -/
theorem reset_none_preserves_table (n : Nat) (s s' : EnvState) (h : resetN n s = some s') :
    s'.table = s.table ∧ (s.first_reset = false → s'.first_reset = false) := by
  induction n generalizing s with
  | zero =>
    unfold resetN at h
    injection h with h
    subst h
    exact ⟨rfl, fun hf => hf⟩
  | succ n ih =>
    unfold resetN at h
    simp only [Option.bind_eq_some] at h
    obtain ⟨r, hr, hrest⟩ := h
    obtain ⟨htab, _, hfl⟩ := reset_none_state s r hr
    obtain ⟨htab2, hfl2⟩ := ih r.state hrest
    exact ⟨htab2.trans htab, fun _ => hfl2 hfl⟩

/-- Witness for C5: two option-free resets on a concrete state keep the
table and the cleared flag. -/
theorem reset_none_preserves_table_witness :
    resetN 2 (mkState (cfgTeams [1, 2]) false 2 false [(false, [(1, 3), (2, 8)])]) =
      some (mkState (cfgTeams [1, 2]) false 1 false [(false, [(1, 3), (2, 8)])]) ∧
    (mkState (cfgTeams [1, 2]) false 1 false [(false, [(1, 3), (2, 8)])]).table =
      (mkState (cfgTeams [1, 2]) false 2 false [(false, [(1, 3), (2, 8)])]).table ∧
    ((mkState (cfgTeams [1, 2]) false 2 false [(false, [(1, 3), (2, 8)])]).first_reset = false →
      (mkState (cfgTeams [1, 2]) false 1 false [(false, [(1, 3), (2, 8)])]).first_reset = false) := by
  refine ⟨by decide, ?_⟩
  exact reset_none_preserves_table 2 _ _ (by decide)

/-- C8: step always returns a five-tuple whose fourth component, the
truncated flag, is false, the other four components being the underlying
four-tuple unchanged. -/
theorem step_returns_truncated_false {α β γ : Type} (s : EnvState)
    (obs : α) (reward : β) (done : Bool) (info : γ) (s' : EnvState)
    (out : α × β × Bool × Bool × γ) (h : step s obs reward done info = some (s', out)) :
    out.2.2.2.1 = false ∧ out = (obs, reward, done, false, info) := by
  unfold step at h
  cases hc : stepCounter s with
  | none => rw [hc] at h; exact Option.noConfusion h
  | some s2 =>
    rw [hc] at h
    injection h with h
    injection h with h1 h2
    subst h2
    exact ⟨rfl, rfl⟩

/-- Witness for C8 on a concrete state and underlying result. -/
theorem step_returns_truncated_false_witness :
    ((7, 2, true, false, 9) : Nat × Int × Bool × Bool × Nat).2.2.2.1 = false ∧
    ((7, 2, true, false, 9) : Nat × Int × Bool × Bool × Nat) = (7, 2, true, false, 9) := by
  refine step_returns_truncated_false (mkState cfgEmpty false 1 false [(false, [(1, 0)])])
    7 2 true 9 (mkState cfgEmpty false 1 false [(false, [(1, 1)])]) (7, 2, true, false, 9) ?_
  decide

/-- C3: a step call adds exactly the active team size (doubled when
opponents are present) to the bucket of the active configuration, and leaves
every other bucket untouched. -/
theorem step_adds_agent_count (s : EnvState) (bucket : Bucket) (v : Int)
    (hb : lookupA s.table s.spawn_opponents = some bucket)
    (hv : lookupA bucket s.team_size = some v) :
    ∃ s', stepCounter s = some s' ∧
      (∃ bucket', lookupA s'.table s.spawn_opponents = some bucket' ∧
        lookupA bucket' s.team_size =
          some (v + (if s.spawn_opponents then s.team_size * 2 else s.team_size))) ∧
      (∀ (b : Bool) (t : Int), ¬(b = s.spawn_opponents ∧ t = s.team_size) →
        Option.bind (lookupA s'.table b) (fun bk => lookupA bk t) =
          Option.bind (lookupA s.table b) (fun bk => lookupA bk t)) := by
  have hstep : stepCounter s = some { s with table := stepTable s } := by
    simp [stepCounter, stepTable, hb, hv]
  refine ⟨_, hstep, ?_, ?_⟩
  · refine ⟨updateA (fun w => w + (if s.spawn_opponents then s.team_size * 2 else s.team_size)) bucket s.team_size, ?_, ?_⟩
    · show lookupA (stepTable s) s.spawn_opponents = _
      unfold stepTable
      rw [lookupA_updateA_same, hb]
      rfl
    · rw [lookupA_updateA_same, hv]
      rfl
  · intro b t hbt
    show Option.bind (lookupA (stepTable s) b) _ = _
    unfold stepTable
    by_cases hbb : b = s.spawn_opponents
    · subst hbb
      have htt : t ≠ s.team_size := fun hc => hbt ⟨rfl, hc⟩
      rw [lookupA_updateA_same, hb]
      simp only [Option.map_some', Option.some_bind]
      rw [lookupA_updateA_ne _ _ _ _ htt]
    · rw [lookupA_updateA_ne _ _ _ _ hbb]

/-- Witness for C3: with opponents absent and team size 3 one step adds 3,
and with opponents present and team size 2 one step adds 4. -/
theorem step_adds_agent_count_witness :
    (∃ s', stepCounter (mkState cfgEmpty false 3 false [(false, [(3, 10)])]) = some s' ∧
      (∃ bucket', lookupA s'.table false = some bucket' ∧
        lookupA bucket' 3 = some (10 + (if false then 3 * 2 else 3))) ∧
      (∀ (b : Bool) (t : Int), ¬(b = false ∧ t = 3) →
        Option.bind (lookupA s'.table b) (fun bk => lookupA bk t) =
          Option.bind (lookupA ([(false, [(3, 10)])] : Table) b) (fun bk => lookupA bk t))) ∧
    (∃ s', stepCounter (mkState cfgEmpty false 2 true [(true, [(2, 6)])]) = some s' ∧
      (∃ bucket', lookupA s'.table true = some bucket' ∧
        lookupA bucket' 2 = some (6 + (if true then 2 * 2 else 2))) ∧
      (∀ (b : Bool) (t : Int), ¬(b = true ∧ t = 2) →
        Option.bind (lookupA s'.table b) (fun bk => lookupA bk t) =
          Option.bind (lookupA ([(true, [(2, 6)])] : Table) b) (fun bk => lookupA bk t))) := by
  constructor
  · exact step_adds_agent_count (mkState cfgEmpty false 3 false [(false, [(3, 10)])]) [(3, 10)] 10 (by decide) (by decide)
  · exact step_adds_agent_count (mkState cfgEmpty false 2 true [(true, [(2, 6)])]) [(2, 6)] 6 (by decide) (by decide)

/-- C4: a reset carrying options replaces the stored configuration outright
and reinstalls a fresh accounting table holding exactly the cross-product of
the new candidate sets, every bucket at zero. -/
theorem reset_options_rebuilds_table (s : EnvState) (c : Config) (r : ResetResult)
    (h : reset s (some c) = some r) :
    r.state.config = c ∧ r.state.table = initTable c ∧
    (∀ b : Bool, (lookupA r.state.table b).isSome ↔ b ∈ spawnCandidates c) ∧
    (∀ (b : Bool) (bk : Bucket), lookupA r.state.table b = some bk →
      (∀ t : Int, (lookupA bk t).isSome ↔ t ∈ teamCandidates c) ∧
      (∀ (t w : Int), lookupA bk t = some w → w = 0)) := by
  obtain ⟨s1, s2, s3, h1, h2, h3, hr⟩ := reset_some_decomp s c r h
  have e1 := parsePost_eff _ _ _ h1
  have e2 := selectSpawn_eff _ _ h2
  have e3 := selectTeam_eff _ _ h3
  have hconf : r.state.config = c := by
    rw [hr]
    show s3.config = c
    rw [e3.1, e2.1]
    exact e1.1
  have htab : r.state.table = initTable c := by
    rw [hr]
    show s3.table = initTable c
    rw [e3.2.1]
    exact e2.2.1
  refine ⟨hconf, htab, ?_, ?_⟩
  · intro b
    rw [htab, lookupA_initTable]
    by_cases hmem : b ∈ spawnCandidates c <;> simp [hmem]
  · intro b bk hbk
    rw [htab, lookupA_initTable] at hbk
    by_cases hmem : b ∈ spawnCandidates c
    · rw [if_pos hmem] at hbk
      injection hbk with hbk
      subst hbk
      constructor
      · intro t
        rw [lookupA_zeroBucket]
        by_cases ht : t ∈ teamCandidates c <;> simp [ht]
      · intro t w hw
        rw [lookupA_zeroBucket] at hw
        by_cases ht : t ∈ teamCandidates c
        · rw [if_pos ht] at hw
          injection hw with hw
          exact hw.symm
        · rw [if_neg ht] at hw
          exact Option.noConfusion hw
    · rw [if_neg hmem] at hbk
      exact Option.noConfusion hbk

/-- Witness for C4 at a concrete state and replacement configuration. -/
theorem reset_options_rebuilds_table_witness :
    reset (mkState cfgEmpty false 1 false [(false, [(1, 5)])]) (some (cfgBoth [false, true] [1, 2])) =
      some rebuildWitnessResult ∧
    rebuildWitnessResult.state.config = cfgBoth [false, true] [1, 2] ∧
    rebuildWitnessResult.state.table = initTable (cfgBoth [false, true] [1, 2]) := by
  refine ⟨by decide, ?_, ?_⟩
  · exact (reset_options_rebuilds_table (mkState cfgEmpty false 1 false [(false, [(1, 5)])])
      (cfgBoth [false, true] [1, 2]) rebuildWitnessResult (by decide)).1
  · exact (reset_options_rebuilds_table (mkState cfgEmpty false 1 false [(false, [(1, 5)])])
      (cfgBoth [false, true] [1, 2]) rebuildWitnessResult (by decide)).2.1

/-- C2: on the first reset, a declared opponents-present candidate list
makes the selector choose true, and a declared team-size candidate list
makes it choose the maximum candidate. -/
theorem first_reset_prefers_richest (s : EnvState) (h1 : s.first_reset = true) :
    (∀ (bs : List Bool) (r : ResetResult), s.config.spawn_opponents = some (CVal.many bs) →
      reset s none = some r → r.state.spawn_opponents = true) ∧
    (∀ (ts : List Int) (m : Int) (r : ResetResult), s.config.team_size = some (CVal.many ts) →
      listMax ts = some m → reset s none = some r → r.state.team_size = m) := by
  constructor
  · intro bs r hm h
    obtain ⟨s2, s3, h2, h3, hr⟩ := reset_none_decomp s r h
    rw [selectSpawn_first s bs hm h1] at h2
    injection h2 with h2
    obtain ⟨_, _, _, hsp⟩ := selectTeam_eff s2 s3 h3
    rw [hr]
    show s3.spawn_opponents = true
    rw [hsp, ← h2]
  · intro ts m r hm hmax h
    obtain ⟨s2, s3, h2, h3, hr⟩ := reset_none_decomp s r h
    obtain ⟨hc2, _, hf2, _⟩ := selectSpawn_eff s s2 h2
    have hm2 : s2.config.team_size = some (CVal.many ts) := by rw [hc2]; exact hm
    have hf2t : s2.first_reset = true := by rw [hf2]; exact h1
    rw [selectTeam_first s2 ts m hm2 hf2t hmax] at h3
    injection h3 with h3
    rw [hr]
    show s3.team_size = m
    rw [← h3]

/-- Witness for C2: with both candidate lists declared, the first reset
chooses opponents-present true and team size 2, the maximum of [1, 2]. -/
theorem first_reset_prefers_richest_witness :
    firstResetWitnessResult.state.spawn_opponents = true ∧
    firstResetWitnessResult.state.team_size = 2 := by
  constructor
  · exact (first_reset_prefers_richest firstResetWitnessState rfl).1 [false, true]
      firstResetWitnessResult rfl (by decide)
  · exact (first_reset_prefers_richest firstResetWitnessState rfl).2 [1, 2] 2
      firstResetWitnessResult rfl (by decide) (by decide)

/-- C1 counterexample: with the candidate list [true] alone, a reachable
second reset finds a nonempty bucket map for the active opponents-present
value, yet fails with a key-lookup error while summing the absent false
bucket instead of choosing the lower-exposure value. -/
theorem reset_selection_missing_bucket_failure :
    construct cfgSpawnTrueOnly = some spawnOnlyState ∧
    reset spawnOnlyState none = some spawnOnlyResult ∧
    spawnOnlyResult.state.first_reset = false ∧
    spawnOnlyResult.state.config.spawn_opponents = some (CVal.many [true]) ∧
    lookupA spawnOnlyResult.state.table spawnOnlyResult.state.spawn_opponents = some [(1, 0)] ∧
    reset spawnOnlyResult.state none = none := by
  decide

/-- C1 (amended): after the first reset, when opponents-present is a
candidate list and the table carries a nonempty bucket map for each of false
and true, reset succeeds, chooses the opponents-present value with the lower
total count (false on ties), and, when team size is also a candidate list,
picks a team-size key of minimal count under the chosen value. -/
theorem reset_prefers_lower_exposure (s : EnvState) (bs : List Bool) (bF bT : Bucket)
    (h1 : s.first_reset = false)
    (hm : s.config.spawn_opponents = some (CVal.many bs))
    (hF : lookupA s.table false = some bF) (hT : lookupA s.table true = some bT)
    (hFne : bF ≠ []) (hTne : bT ≠ []) :
    ∃ r, reset s none = some r ∧
      r.state.spawn_opponents = (if sumVals bT < sumVals bF then true else false) ∧
      (∀ ts : List Int, s.config.team_size = some (CVal.many ts) →
        ∃ (bC : Bucket) (cnt : Int), lookupA s.table r.state.spawn_opponents = some bC ∧
          (r.state.team_size, cnt) ∈ bC ∧ ∀ p ∈ bC, cnt ≤ p.2) := by
  have hA : lookupA s.table s.spawn_opponents = some (if s.spawn_opponents then bT else bF) := by
    cases hsp : s.spawn_opponents <;> simp [hF, hT]
  have hAne : (if s.spawn_opponents then bT else bF) ≠ [] := by
    cases s.spawn_opponents <;> simp [hFne, hTne]
  have hCB : lookupA s.table (if sumVals bT < sumVals bF then true else false) =
      some (if sumVals bT < sumVals bF then bT else bF) := by
    by_cases hc : sumVals bT < sumVals bF <;> simp [hc, hF, hT]
  have hCne : (if sumVals bT < sumVals bF then bT else bF) ≠ [] := by
    by_cases hc : sumVals bT < sumVals bF <;> simp [hc, hFne, hTne]
  have h2 : selectSpawn s =
      some { s with spawn_opponents := if sumVals bT < sumVals bF then true else false } :=
    selectSpawn_min s bs _ bF bT hm h1 hA hAne hF hT
  cases hts : s.config.team_size with
  | none =>
    have h3 : selectTeam { s with spawn_opponents := if sumVals bT < sumVals bF then true else false } =
        some { s with spawn_opponents := if sumVals bT < sumVals bF then true else false } := by
      apply selectTeam_not_many
      show isCandidate s.config.team_size = false
      rw [hts]
      rfl
    refine ⟨_, reset_none_build s _ _ h2 h3, rfl, ?_⟩
    intro ts hcontra
    exact Option.noConfusion hcontra
  | some cv =>
    cases cv with
    | scalar v =>
      have h3 : selectTeam { s with spawn_opponents := if sumVals bT < sumVals bF then true else false } =
          some { s with spawn_opponents := if sumVals bT < sumVals bF then true else false } := by
        apply selectTeam_not_many
        show isCandidate s.config.team_size = false
        rw [hts]
        rfl
      refine ⟨_, reset_none_build s _ _ h2 h3, rfl, ?_⟩
      intro ts hcontra
      injection hcontra with hcontra
      exact CVal.noConfusion hcontra
    | many ts0 =>
      cases hbc : (if sumVals bT < sumVals bF then bT else bF) with
      | nil => exact absurd hbc hCne
      | cons p rest =>
        have hmin0 : minKey (if sumVals bT < sumVals bF then bT else bF) =
            some (minPairAux p rest).1 := by
          rw [hbc]
          rfl
        have hls : localSpawn { s with spawn_opponents := if sumVals bT < sumVals bF then true else false } =
            (if sumVals bT < sumVals bF then true else false) :=
          localSpawn_many _ bs hm
        have hmin : minKey ((lookupA ({ s with spawn_opponents := if sumVals bT < sumVals bF then true else false }).table
              (localSpawn { s with spawn_opponents := if sumVals bT < sumVals bF then true else false })).getD
              (zeroBucket ts0)) = some (minPairAux p rest).1 := by
          rw [hls]
          show minKey ((lookupA s.table (if sumVals bT < sumVals bF then true else false)).getD (zeroBucket ts0)) = _
          rw [hCB]
          exact hmin0
        have h3 : selectTeam { s with spawn_opponents := if sumVals bT < sumVals bF then true else false } =
            some { { s with spawn_opponents := if sumVals bT < sumVals bF then true else false } with
                   team_size := (minPairAux p rest).1 } :=
          selectTeam_min _ ts0 (if sumVals bT < sumVals bF then bT else bF) (minPairAux p rest).1
            hts h1 hCB hCne hmin
        refine ⟨_, reset_none_build s _ _ h2 h3, rfl, ?_⟩
        intro ts hts2
        obtain ⟨cnt, hmem, hle⟩ := minKey_spec _ _ hmin0
        exact ⟨(if sumVals bT < sumVals bF then bT else bF), cnt, hCB, hmem, hle⟩

/-- Witness for the amended C1 on a concrete unbalanced table: total
exposure 14 under false and 12 under true, so true is chosen, and within it
team size 1 with count 3 beats team size 2 with count 9. -/
theorem reset_prefers_lower_exposure_witness :
    ∃ r, reset balanceWitnessState none = some r ∧
      r.state.spawn_opponents =
        (if sumVals [(1, 3), (2, 9)] < sumVals [(1, 10), (2, 4)] then true else false) ∧
      (∀ ts : List Int, balanceWitnessState.config.team_size = some (CVal.many ts) →
        ∃ (bC : Bucket) (cnt : Int),
          lookupA balanceWitnessState.table r.state.spawn_opponents = some bC ∧
          (r.state.team_size, cnt) ∈ bC ∧ ∀ p ∈ bC, cnt ≤ p.2) := by
  exact reset_prefers_lower_exposure balanceWitnessState [false, true] [(1, 10), (2, 4)]
    [(1, 3), (2, 9)] rfl rfl (by decide) (by decide) (by decide) (by decide)

/-- C6 counterexample: with spawn_opponents the scalar True the wrapper
constructs a table keyed only by true while the active value stays false, so
the very next step call fails with a key-lookup error instead of lazily
creating the missing bucket at zero. -/
theorem step_lookup_failure_cex :
    construct cfgScalarTrue = some scalarTrueState ∧ stepCounter scalarTrueState = none := by
  decide

/-- C6 (amended): only the team-size selection of reset reads the
accounting table through a lookup with a zero-filled default bucket map, so
that a chosen opponents-present value without an entry still lets reset
succeed, selecting the first candidate of minimal (zero) count, and the
default map is not written back into the table; the other accesses index the
table directly and fail on a missing key. -/
theorem team_lookup_defaults_to_zero (s : EnvState) (bAct : Bucket) (ts : List Int)
    (t : Int) (rest : List Int)
    (h1 : s.first_reset = false)
    (hsp : s.config.spawn_opponents = some (CVal.scalar true))
    (hAct : lookupA s.table s.spawn_opponents = some bAct) (hne : bAct ≠ [])
    (hmiss : lookupA s.table true = none)
    (ht : s.config.team_size = some (CVal.many ts))
    (hdd : firstDedup ts = t :: rest) :
    ∃ r, reset s none = some r ∧ r.state.team_size = t ∧ r.state.table = s.table := by
  have h2 : selectSpawn s = some s := by
    apply selectSpawn_not_many
    rw [show isCandidate s.config.spawn_opponents = isCandidate (some (CVal.scalar true)) by rw [hsp]]
    rfl
  have hls : localSpawn s = true := localSpawn_scalar s true hsp
  have hzb : zeroBucket ts = (t, 0) :: rest.map (fun x => (x, 0)) := by
    unfold zeroBucket
    rw [hdd]
    rfl
  have hmin : minKey ((lookupA s.table (localSpawn s)).getD (zeroBucket ts)) = some t := by
    rw [hls, hmiss]
    show minKey (zeroBucket ts) = some t
    rw [hzb]
    show some (minPairAux (t, 0) (rest.map (fun x => (x, 0)))).1 = some t
    rw [minPairAux_no_smaller]
    intro p hp
    obtain ⟨x, _, hpx⟩ := List.mem_map.mp hp
    rw [← hpx]
    exact lt_irrefl 0
  have h3 : selectTeam s = some { s with team_size := t } :=
    selectTeam_min s ts bAct t ht h1 hAct hne hmin
  exact ⟨_, reset_none_build s s { s with team_size := t } h2 h3, rfl, rfl⟩

/-- Witness for the amended C6: the chosen opponents-present value true has
no table entry, yet reset succeeds, picks team size 2 from the zero default,
and leaves the table unchanged. -/
theorem team_lookup_defaults_to_zero_witness :
    ∃ r, reset lazyWitnessState none = some r ∧ r.state.team_size = 2 ∧
      r.state.table = lazyWitnessState.table := by
  exact team_lookup_defaults_to_zero lazyWitnessState [(1, 7)] [2, 3] 2 [3]
    rfl rfl (by decide) (by decide) (by decide) rfl (by decide)

/-- C10: the active-configuration attributes change during normalization
only when the config value is a list; with spawn_opponents the fixed scalar
True the attributes keep their construction defaults (opponents absent,
team size 1) while the table is keyed only by true, so the first step call,
before or after an option-free reset, fails with a key-lookup error instead
of incrementing any bucket. -/
theorem scalar_spawn_breaks_step :
    (∀ (c : Config) (s s' : EnvState), parsePost c s = some s' →
      (isCandidate c.spawn_opponents = false → s'.spawn_opponents = s.spawn_opponents) ∧
      (isCandidate c.team_size = false → s'.team_size = s.team_size)) ∧
    construct cfgScalarTrue = some scalarTrueState ∧
    scalarTrueState.spawn_opponents = false ∧ scalarTrueState.team_size = 1 ∧
    lookupA scalarTrueState.table false = none ∧
    lookupA scalarTrueState.table true = some [(1, 0)] ∧
    stepCounter scalarTrueState = none ∧
    reset scalarTrueState none = some scalarTrueReset ∧
    stepCounter scalarTrueReset.state = none := by
  refine ⟨parsePost_scalar_fields, ?_⟩
  decide

/-- Witness for C10: the scalar-valued parse post-processing clause applied
to a concrete config that also carries a team candidate list. -/
theorem scalar_spawn_breaks_step_witness :
    parsePost parseWitnessCfg parseWitnessPre = some parseWitnessPost ∧
    parseWitnessPost.spawn_opponents = parseWitnessPre.spawn_opponents := by
  refine ⟨by decide, ?_⟩
  exact (scalar_spawn_breaks_step.1 parseWitnessCfg parseWitnessPre parseWitnessPost
    (by decide)).1 (by decide)

end RLGymWrapper

namespace RLGymWrapper

/-! Lemmas about the key-dispatch loop of parse_make_kwargs. -/

theorem setA_keys {α β : Type} [DecidableEq α] :
    ∀ (l : List (α × β)) (k : α) (v : β), k ∈ l.map Prod.fst →
      (setA l k v).map Prod.fst = l.map Prod.fst := by
  intro l k v hk
  induction l with
  | nil => simp at hk
  | cons p rest ih =>
    obtain ⟨k1, v1⟩ := p
    by_cases h : k = k1
    · unfold setA
      rw [if_pos h]
      simp [h]
    · unfold setA
      rw [if_neg h]
      simp only [List.map_cons]
      simp only [List.map_cons, List.mem_cons] at hk
      rcases hk with hk | hk
      · exact absurd hk h
      · rw [ih hk]

theorem parseItem_parsers {α : Type} (acc : List (String × KVal α) × List String)
    (it : String × α) (hp : it.1 ∈ make_config_parsers) :
    parseItem acc it =
      (setA acc.1 (make_kwarg_key_transformations it.1) (KVal.built it.1 it.2), acc.2) := by
  unfold parseItem
  rw [if_pos hp]

theorem parseItem_names {α : Type} (acc : List (String × KVal α) × List String)
    (it : String × α) (hp : it.1 ∉ make_config_parsers) (hn : it.1 ∈ make_kwarg_names) :
    parseItem acc it =
      (setA acc.1 (make_kwarg_key_transformations it.1) (KVal.raw it.2), acc.2) := by
  unfold parseItem
  rw [if_neg hp, if_pos hn]

theorem parseItem_unknown {α : Type} (acc : List (String × KVal α) × List String)
    (it : String × α) (hp : it.1 ∉ make_config_parsers) (hn : it.1 ∉ make_kwarg_names) :
    parseItem acc it = (acc.1, acc.2 ++ [it.1]) := by
  unfold parseItem
  rw [if_neg hp, if_neg hn]

theorem parse_fold_fst {α : Type} :
    ∀ (items : List (String × α)) (kw : List (String × KVal α)) (ws ws' : List String),
      (items.foldl parseItem (kw, ws)).1 = (items.foldl parseItem (kw, ws')).1 := by
  intro items
  induction items with
  | nil => intro kw ws ws'; rfl
  | cons it rest ih =>
    intro kw ws ws'
    simp only [List.foldl_cons]
    by_cases hp : it.1 ∈ make_config_parsers
    · rw [parseItem_parsers (kw, ws) it hp, parseItem_parsers (kw, ws') it hp]
      exact ih _ _ _
    · by_cases hn : it.1 ∈ make_kwarg_names
      · rw [parseItem_names (kw, ws) it hp hn, parseItem_names (kw, ws') it hp hn]
        exact ih _ _ _
      · rw [parseItem_unknown (kw, ws) it hp hn, parseItem_unknown (kw, ws') it hp hn]
        exact ih _ _ _

theorem parse_fold_snd_ext {α : Type} :
    ∀ (items : List (String × α)) (kw : List (String × KVal α)) (ws : List String),
      ∃ extra, (items.foldl parseItem (kw, ws)).2 = ws ++ extra := by
  intro items
  induction items with
  | nil => intro kw ws; exact ⟨[], (List.append_nil ws).symm⟩
  | cons it rest ih =>
    intro kw ws
    simp only [List.foldl_cons]
    by_cases hp : it.1 ∈ make_config_parsers
    · rw [parseItem_parsers (kw, ws) it hp]
      exact ih _ _
    · by_cases hn : it.1 ∈ make_kwarg_names
      · rw [parseItem_names (kw, ws) it hp hn]
        exact ih _ _
      · rw [parseItem_unknown (kw, ws) it hp hn]
        obtain ⟨extra, hext⟩ := ih kw (ws ++ [it.1])
        exact ⟨[it.1] ++ extra, by rw [hext, List.append_assoc]⟩

theorem transform_mem_default_keys :
    ∀ k ∈ make_kwarg_names, make_kwarg_key_transformations k ∈ default_make_kwarg_keys := by
  decide

theorem parsers_sub_names : ∀ k ∈ make_config_parsers, k ∈ make_kwarg_names := by
  decide

theorem parse_fold_keys {α : Type} :
    ∀ (items : List (String × α)) (kw : List (String × KVal α)) (ws : List String),
      kw.map Prod.fst = default_make_kwarg_keys →
      ((items.foldl parseItem (kw, ws)).1).map Prod.fst = default_make_kwarg_keys := by
  intro items
  induction items with
  | nil => intro kw ws h; exact h
  | cons it rest ih =>
    intro kw ws h
    simp only [List.foldl_cons]
    by_cases hp : it.1 ∈ make_config_parsers
    · rw [parseItem_parsers (kw, ws) it hp]
      apply ih
      rw [setA_keys, h]
      rw [h]
      exact transform_mem_default_keys it.1 (parsers_sub_names it.1 hp)
    · by_cases hn : it.1 ∈ make_kwarg_names
      · rw [parseItem_names (kw, ws) it hp hn]
        apply ih
        rw [setA_keys, h]
        rw [h]
        exact transform_mem_default_keys it.1 hn
      · rw [parseItem_unknown (kw, ws) it hp hn]
        exact ih _ _ h

/-- C9: an unrecognized configuration key contributes nothing to the
construction kwargs (all recognized keys are processed exactly as if the
unknown key were absent, and the unknown key never becomes a kwargs entry),
while a warning naming it is recorded; the dispatch loop is total, so no
error is raised. -/
theorem unknown_key_warned_and_ignored {α : Type} (pre post : List (String × α))
    (k : String) (v : α)
    (h1 : k ∉ make_config_parsers) (h2 : k ∉ make_kwarg_names) :
    (parseMakeKwargs (pre ++ (k, v) :: post)).1 = (parseMakeKwargs (pre ++ post)).1 ∧
    k ∈ (parseMakeKwargs (pre ++ (k, v) :: post)).2 ∧
    (k ∉ default_make_kwarg_keys →
      ∀ w, (k, w) ∉ (parseMakeKwargs (pre ++ (k, v) :: post)).1) := by
  unfold parseMakeKwargs
  rw [List.foldl_append, List.foldl_append]
  cases hacc : pre.foldl parseItem ((default_make_kwargs : List (String × KVal α)), ([] : List String)) with
  | mk kw0 ws0 =>
    simp only [List.foldl_cons]
    have hitem : parseItem (kw0, ws0) (k, v) = (kw0, ws0 ++ [k]) := by
      unfold parseItem
      simp [h1, h2]
    rw [hitem]
    refine ⟨parse_fold_fst post kw0 (ws0 ++ [k]) ws0, ?_, ?_⟩
    · obtain ⟨extra, hext⟩ := parse_fold_snd_ext post kw0 (ws0 ++ [k])
      rw [hext]
      simp
    · intro hk w hmem
      apply hk
      have hkeys : ((post.foldl parseItem (kw0, ws0 ++ [k])).1).map Prod.fst = default_make_kwarg_keys := by
        apply parse_fold_keys
        have := parse_fold_keys pre (default_make_kwargs (α := α)) [] rfl
        rw [hacc] at this
        exact this
      rw [← hkeys]
      exact List.mem_map_of_mem Prod.fst hmem

/-- Witness for C9: the unknown key mystery is warned about and ignored
while the recognized keys around it are still processed. -/
theorem unknown_key_warned_and_ignored_witness :
    (parseMakeKwargs ([("team_size", 2)] ++ ("mystery", 7) :: [("gravity", 9)])).1 =
      (parseMakeKwargs ([("team_size", (2 : Nat))] ++ [("gravity", 9)])).1 ∧
    "mystery" ∈ (parseMakeKwargs ([("team_size", (2 : Nat))] ++ ("mystery", 7) :: [("gravity", 9)])).2 ∧
    ("mystery" ∉ default_make_kwarg_keys →
      ∀ w, ("mystery", w) ∉ (parseMakeKwargs ([("team_size", (2 : Nat))] ++ ("mystery", 7) :: [("gravity", 9)])).1) := by
  exact unknown_key_warned_and_ignored [("team_size", 2)] [("gravity", 9)] "mystery" 7
    (by decide) (by decide)

end RLGymWrapper
